import Mathlib

/-!
# Verification of the Namada transaction-envelope and protocol pipeline

A shallow embedding, in Lean 4, of the parts of the Namada ledger relevant to
the spec claims under scrutiny:

* the `Commitment` / `Section` / `Tx` content-addressed transaction model and
  its signature-verification routines (`core/src/proto/types.rs`);
* the wrapper fee-charging pipeline (`transfer_fee`, `token_transfer`,
  `apply_wrapper_tx` in `shared/src/ledger/protocol/mod.rs`);
* the validity-predicate execution and result-merging protocol
  (`execute_vps`, `merge_vp_results` in the same file);
* the Ethereum bridge-pool native VP
  (`shared/src/ledger/native_vp/ethereum_bridge/bridge_pool_vp.rs`);
* the dispatch entry point (`dispatch_tx`).

External collaborators (SHA-256, borsh serialization, the ed25519/secp256k1
signature schemes, the gas meters defined in `ledger/gas.rs`) are idealized:
hashing is replaced by an injective pairing-based stand-in, signatures by a
formal record of which key signed which digest, and the gas meters by a
limit/consumed pair.  Every control-flow decision of the embedded functions
mirrors the corresponding Rust source.
-/

namespace Namada

/-- The token `Amount` type in the source is a 256-bit unsigned integer;
`maxAmount` is its maximal value.  Arithmetic on amounts is `Nat` arithmetic
guarded by this bound. -/
def maxAmount : Nat := 2 ^ 256 - 1

/-- `Amount::checked_sub`: `none` exactly when the subtraction would
underflow. -/
def checkedSub (a b : Nat) : Option Nat :=
  if b ≤ a then some (a - b) else none

/-- `Amount::checked_add`: `none` exactly when the sum would overflow the
256-bit representation. -/
def checkedAdd (a b : Nat) : Option Nat :=
  if a + b ≤ maxAmount then some (a + b) else none

/-- Injective pairing combinator, the stand-in for feeding one more field into
a running SHA-256 hasher. -/
def hcomb (a b : Nat) : Nat := (a + b) * (a + b + 1) / 2 + b

/-- Hash of a list of field values, the stand-in for hashing a canonical byte
encoding. -/
def hlist (l : List Nat) : Nat := l.foldl hcomb 17

/-- Stand-in for `hash_tx`, the SHA-256 digest of a byte string (used by
`Commitment`).  Only its determinism matters for the claims below. -/
def hash_tx (bytes : List Nat) : Nat := hcomb 1 (hlist bytes)

/-! ## Commitments (`core/src/proto/types.rs`, `enum Commitment`) -/

/-- `Commitment`: either the SHA-256 digest of some bytes, or the bytes
themselves. -/
inductive Commitment where
  /-- `Commitment::Hash`: result of applying the hash function to bytes. -/
  | hash (h : Nat) : Commitment
  /-- `Commitment::Id`: the bytes themselves. -/
  | id (bytes : List Nat) : Commitment
deriving DecidableEq, Repr

namespace Commitment

/-- `Commitment::contract`: substitute bytes with their digest.  A `Hash`
commitment is left unchanged. -/
def contract : Commitment → Commitment
  | .id code => .hash (hash_tx code)
  | c => c

/-- `Commitment::expand`: substitute a digest with the supplied bytes if
consistent.  The source mutates `self` in place and returns
`Result<(), CommitmentError>`; we return the post-state together with
`some ()` for the `CommitmentError` case, in which the commitment is
unchanged. -/
def expand (c : Commitment) (code : List Nat) : Commitment × Option Unit :=
  match c with
  | .id bytes => if bytes = code then (.id bytes, none) else (c, some ())
  | .hash h => if h = hash_tx code then (.id code, none) else (c, some ())

/-- `Commitment::hash`: the digest held or the digest of the held bytes. -/
def hashC : Commitment → Nat
  | .id code => hash_tx code
  | .hash h => h

end Commitment

/-! ## The transaction envelope (`core/src/proto/types.rs`)

Idealized cryptography: a signature records which public key produced it and
which digest was signed; `sigVerify` checks exactly that.  The signature
schemes themselves (`common::SigScheme`) live outside the embedded sources. -/

/-- An idealized raw signature: the key that produced it and the digest it
signs. -/
structure Sig where
  pk : Nat
  msg : Nat
deriving DecidableEq, Repr

/-- Idealized `SigScheme::verify_signature`. -/
def sigVerify (pk : Nat) (data : Nat) (sig : Sig) : Bool :=
  sig.pk = pk && sig.msg = data

/-- `SignatureIndex`: a raw signature paired with the signer's index into an
externally supplied address-to-public-key ordering. -/
structure SignatureIndex where
  signature : Sig
  index : Nat
deriving DecidableEq, Repr

/-- `AccountPublicKeysMap`, reduced to the one operation used here:
`get_public_key_from_index`, modelled by positional lookup in a list of
public keys. -/
def AccountPublicKeysMap := List Nat

/-- `SignatureIndex::verify`: resolve the index to a public key and check the
raw signature; an unresolvable index is the `VerifySigError::MissingData`
failure, so verification does not succeed. -/
def SignatureIndex.verifyIdx (si : SignatureIndex) (map : List Nat)
    (data : Nat) : Bool :=
  match map.get? si.index with
  | some pk => sigVerify pk data si.signature
  | none => false

/-- `MultiSignature`: a multisig section body — target hashes plus indexed
signatures.  The source stores signatures in a `BTreeSet` ordered by index;
we keep the iteration order as a list. -/
structure MultiSignature where
  targets : List Nat
  signatures : List SignatureIndex
deriving DecidableEq, Repr

/-- `MultiSignature::total_signatures` returns `self.signatures.len() as u8`;
the cast truncates modulo 256. -/
def MultiSignature.total_signatures (m : MultiSignature) : Nat :=
  m.signatures.length % 256

/-- Stand-in for the borsh encoding of a `SignatureIndex`. -/
def SignatureIndex.enc (si : SignatureIndex) : Nat :=
  hcomb (hcomb si.signature.pk si.signature.msg) si.index

/-- `MultiSignature::get_hash`: digest of the struct's canonical encoding. -/
def MultiSignature.get_hash (m : MultiSignature) : Nat :=
  hcomb (hlist m.targets) (hlist (m.signatures.map SignatureIndex.enc))

/-- `MultiSignature::get_raw_hash`: the hash of the section with the signature
set cleared. -/
def MultiSignature.get_raw_hash (m : MultiSignature) : Nat :=
  MultiSignature.get_hash { targets := m.targets, signatures := [] }

/-- `Signature`: a single-signer signature section body. -/
structure SignatureSec where
  targets : List Nat
  signature : Option Sig
deriving DecidableEq, Repr

/-- Stand-in for the borsh encoding of an `Option` field. -/
def encOpt : Option Nat → Nat
  | none => 0
  | some n => hcomb 1 n

/-- `Signature::get_hash`: digest of the struct's canonical encoding. -/
def SignatureSec.get_hash (s : SignatureSec) : Nat :=
  hcomb (hlist s.targets)
    (encOpt (s.signature.map fun sig => hcomb sig.pk sig.msg))

/-- `Signature::verify_signature`: an absent signature is
`VerifySigError::MissingData`; otherwise the raw signature is checked against
the hash of the section with the signature cleared. -/
def SignatureSec.verify_signature (s : SignatureSec) (pk : Nat) : Bool :=
  match s.signature with
  | none => false
  | some sig =>
      sigVerify pk (SignatureSec.get_hash { s with signature := none }) sig

/-- `Data` section body: salt plus payload bytes. -/
structure DataSec where
  salt : Nat
  data : List Nat
deriving DecidableEq, Repr

/-- `Data::hash`: digest of the section's canonical encoding. -/
def DataSec.hashS (d : DataSec) : Nat := hlist (d.salt :: d.data)

/-- `Code` section body (also used for `ExtraData`): salt plus a code
commitment. -/
structure CodeSec where
  salt : Nat
  code : Commitment
deriving DecidableEq, Repr

/-- `Code::hash` feeds the salt and then `self.code.hash()` — the digest of
the commitment, not the commitment's bytes — into the hasher. -/
def CodeSec.hashS (c : CodeSec) : Nat := hcomb c.salt c.code.hashC

/-- `DecryptedTx`: a successfully decrypted payload (with its testnet
proof-of-work flag) or an undecryptable one. -/
inductive DecryptedTx where
  | decrypted (hasValidPow : Bool) : DecryptedTx
  | undecryptable : DecryptedTx
deriving DecidableEq, Repr

/-- `TxType`.  The wrapper and protocol payloads are opaque for the envelope
claims; the fields of `WrapperTx` that the fee pipeline reads get their own
model below. -/
inductive TxType where
  | raw : TxType
  | wrapper (w : Nat) : TxType
  | decrypted (d : DecryptedTx) : TxType
  | protocol (p : Nat) : TxType
deriving DecidableEq, Repr

/-- Stand-in for the borsh encoding of a `TxType`. -/
def TxType.enc : TxType → Nat
  | .raw => 0
  | .wrapper w => hcomb 1 w
  | .decrypted (.decrypted pow) => hcomb 2 (cond pow 1 0)
  | .decrypted .undecryptable => hcomb 2 2
  | .protocol p => hcomb 3 p

/-- The transaction `Header`. -/
structure Header where
  chainId : Nat
  expiration : Option Nat
  timestamp : Nat
  codeHash : Nat
  dataHash : Nat
  txType : TxType
deriving DecidableEq, Repr

/-- `Header::hash`: digest of the header's canonical encoding. -/
def Header.hashS (h : Header) : Nat :=
  hlist [h.chainId, encOpt h.expiration, h.timestamp, h.codeHash, h.dataHash,
    h.txType.enc]

/-- `Section`: a tagged fragment of a transaction.  `Ciphertext`, `MaspTx`
and `MaspBuilder` carry payloads that are opaque to every claim below. -/
inductive Section where
  | data (d : DataSec) : Section
  | extraData (c : CodeSec) : Section
  | code (c : CodeSec) : Section
  | sectionSignature (m : MultiSignature) : Section
  | signature (s : SignatureSec) : Section
  | ciphertext (c : List Nat) : Section
  | maspTx (t : Nat) : Section
  | maspBuilder (b : Nat) : Section
  | header (h : Header) : Section
deriving DecidableEq, Repr

namespace Section

/-- The borsh discriminant byte of a section variant, folded into its hash
first. -/
def disc : Section → Nat
  | .data _ => 0
  | .extraData _ => 1
  | .code _ => 2
  | .sectionSignature _ => 3
  | .signature _ => 4
  | .ciphertext _ => 5
  | .maspTx _ => 6
  | .maspBuilder _ => 7
  | .header _ => 8

/-- `Section::get_hash`: fold the discriminant byte and the variant's
canonical encoding into a digest. -/
def get_hash : Section → Nat
  | .data d => hcomb 0 d.hashS
  | .extraData c => hcomb 1 c.hashS
  | .code c => hcomb 2 c.hashS
  | .sectionSignature m => hcomb 3 m.get_hash
  | .signature s => hcomb 4 s.get_hash
  | .ciphertext c => hcomb 5 (hlist c)
  | .maspTx t => hcomb 6 t
  | .maspBuilder b => hcomb 7 b
  | .header h => hcomb 8 h.hashS

end Section

/-- `Tx`: a header followed by an ordered list of sections. -/
structure Tx where
  header : Header
  sections : List Section
deriving DecidableEq, Repr

namespace Tx

/-- `Tx::header_hash`: the hash of the header wrapped in a `Header`-variant
section. -/
def header_hash (tx : Tx) : Nat := (Section.header tx.header).get_hash

/-- `Tx::get_section`: the synthetic header section is matched first, then
the sections are scanned linearly by hash. -/
def get_section (tx : Tx) (h : Nat) : Option Section :=
  if tx.header_hash = h then some (Section.header tx.header)
  else tx.sections.find? fun s => s.get_hash = h

/-- `Tx::sechashes`: the header hash followed by every section hash in
order. -/
def sechashes (tx : Tx) : List Nat :=
  tx.header_hash :: tx.sections.map Section.get_hash

end Tx

/-! ## Signature verification (`Tx::verify_section_signatures`,
`Tx::verify_signature`) -/

/-- The `proto::Error` enum of `core/src/proto/types.rs`, embedded
exhaustively.  Note that it has no `MissingData` variant; `MissingData`
exists only in the separate `VerifySigError` enum of the key module. -/
inductive ProtoError where
  | txDecodingError (e : String) : ProtoError
  | txDeserializingError (e : String) : ProtoError
  | offlineTxDeserializationError : ProtoError
  | dkgDecodingError (e : String) : ProtoError
  | noDkgError : ProtoError
  | noTimestampError : ProtoError
  | invalidTimestamp (e : String) : ProtoError
  | invalidSectionSignature (msg : String) : ProtoError
  | invalidJSONDeserialization (msg : String) : ProtoError
  | invalidWrapperSignature : ProtoError
  | outOfGas : ProtoError
deriving DecidableEq, Repr

/-- Modelled from the spec: the `VpGasMeter` of `ledger/gas.rs` is outside
the embedded sources; per the spec it is a meter from which fixed costs are
consumed, failing fatally when the budget is exhausted. -/
structure VpGasMeter where
  limit : Nat
  consumed : Nat
deriving DecidableEq, Repr

/-- Modelled from the spec: `GasMetering::consume` adds a cost to the meter,
failing when the limit would be exceeded (in which case the meter is
returned unchanged). -/
def VpGasMeter.consume (g : VpGasMeter) (cost : Nat) :
    Except Unit VpGasMeter :=
  if g.consumed + cost ≤ g.limit then
    Except.ok { g with consumed := g.consumed + cost }
  else Except.error ()

/-- Modelled from the spec: `VERIFY_TX_SIG_GAS_COST`, the fixed gas cost of
one signature check (a constant of `ledger/gas.rs`). -/
def VERIFY_TX_SIG_GAS_COST : Nat := 1000

/-- Outcome of the inner signature loop of `verify_section_signatures`:
either the surrounding function returned (with the meter at that point), or
the loop fell through with an updated valid-signature count and meter. -/
inductive SigLoopOut where
  | ret (r : Except ProtoError Unit) (gas : VpGasMeter) : SigLoopOut
  | cont (valid : Nat) (gas : VpGasMeter) : SigLoopOut
deriving Repr

/-- The inner loop of `Tx::verify_section_signatures` over one section's
indexed signatures: verify the signature, consume the fixed gas cost (a
failure to pay is the fatal `OutOfGas`), count it if valid, and return `Ok`
as soon as the threshold is met. -/
def sigLoop (map : List Nat) (rawHash : Nat) (threshold : Nat) :
    List SignatureIndex → Nat → VpGasMeter → SigLoopOut
  | [], valid, gas => .cont valid gas
  | si :: rest, valid, gas =>
    let isValid := si.verifyIdx map rawHash
    match gas.consume VERIFY_TX_SIG_GAS_COST with
    | .error _ => .ret (.error .outOfGas) gas
    | .ok gas1 =>
      let valid1 := if isValid then valid + 1 else valid
      if threshold ≤ valid1 then .ret (.ok ()) gas1
      else sigLoop map rawHash threshold rest valid1 gas1

/-- The outer loop of `Tx::verify_section_signatures` over the transaction's
sections.  For each `SectionSignature` section, in order: every requested
hash must be among the section's targets (or be the section's own hash);
every recorded target must resolve to a present section; the signature count
is capped by `max_signatures` and must reach `threshold`; then the indexed
signatures are checked one by one.  The valid-signature count accumulates
across sections. -/
def secLoop (tx : Tx) (hashes : List Nat) (map : List Nat) (threshold : Nat)
    (maxSigs : Nat) :
    List Section → Nat → VpGasMeter → Except ProtoError Unit × VpGasMeter
  | [], _, gas =>
    (.error (.invalidSectionSignature "invalid signatures."), gas)
  | sec :: rest, valid, gas =>
    match sec with
    | .sectionSignature signatures =>
      if ¬ hashes.all (fun x =>
          signatures.targets.contains x || sec.get_hash = x) then
        (.error (.invalidSectionSignature "missing target hash."), gas)
      else if signatures.targets.any
          (fun t => (tx.get_section t).isNone) then
        (.error (.invalidSectionSignature "Missing target section."), gas)
      else if maxSigs < signatures.total_signatures then
        (.error (.invalidSectionSignature "too many signatures."), gas)
      else if signatures.total_signatures < threshold then
        (.error (.invalidSectionSignature "too few signatures."), gas)
      else
        match sigLoop map signatures.get_raw_hash threshold
            signatures.signatures valid gas with
        | .ret r gas1 => (r, gas1)
        | .cont valid1 gas1 =>
          secLoop tx hashes map threshold maxSigs rest valid1 gas1
    | _ => secLoop tx hashes map threshold maxSigs rest valid gas

/-- `Tx::verify_section_signatures`: quorum verification of the multisig
sections against the supplied key map, threshold and signature cap, metering
each signature check.  `max_signatures` defaults to `u8::MAX`. -/
def Tx.verify_section_signatures (tx : Tx) (hashes : List Nat)
    (map : List Nat) (threshold : Nat) (maxSignatures : Option Nat)
    (gas : VpGasMeter) : Except ProtoError Unit × VpGasMeter :=
  secLoop tx hashes map threshold (maxSignatures.getD 255) tx.sections 0 gas

/-- `Tx::verify_signature`: scan for a `Signature` section whose recorded
targets cover the requested hashes (a hash equal to the section's own hash
is implicitly covered); all of that section's targets must resolve to
present sections, else the scan fails with
`InvalidSectionSignature("Target section is missing.")`; finally the
signature itself is checked, a failure being `InvalidWrapperSignature`. -/
def verifySigLoop (tx : Tx) (pk : Nat) (hashes : List Nat) :
    List Section → Except ProtoError SignatureSec
  | [] => .error .invalidWrapperSignature
  | sec :: rest =>
    match sec with
    | .signature s =>
      if hashes.all (fun x => s.targets.contains x || sec.get_hash = x) then
        if s.targets.any (fun t => (tx.get_section t).isNone) then
          .error (.invalidSectionSignature "Target section is missing.")
        else if s.verify_signature pk then .ok s
        else .error .invalidWrapperSignature
      else verifySigLoop tx pk hashes rest
    | _ => verifySigLoop tx pk hashes rest

/-- `Tx::verify_signature`, entry point. -/
def Tx.verify_signature (tx : Tx) (pk : Nat) (hashes : List Nat) :
    Except ProtoError SignatureSec :=
  verifySigLoop tx pk hashes tx.sections

/-! ## `Tx::wallet_filter` -/

/-- Whether a section is one that `wallet_filter` contracts (and returns a
clone of). -/
def Section.isWalletFiltered : Section → Bool
  | .code _ => true
  | .extraData _ => true
  | _ => false

/-- The in-place effect of `wallet_filter` on one section: `Code` and
`ExtraData` sections have their commitment contracted to its hash. -/
def Section.walletContract : Section → Section
  | .code c => .code { c with code := c.code.contract }
  | .extraData c => .extraData { c with code := c.code.contract }
  | s => s

/-- `Tx::wallet_filter`: iterate the sections from the last to the first,
pushing a clone of every `Code`/`ExtraData` section to the returned list and
contracting the section's commitment in place.  The result is the mutated
transaction together with the returned clones (in reverse section order,
matching the push order of the source loop). -/
def Tx.wallet_filter (tx : Tx) : Tx × List Section :=
  ({ tx with sections := tx.sections.map Section.walletContract },
    tx.sections.reverse.filter Section.isWalletFiltered)

/-! ## The protocol pipeline (`shared/src/ledger/protocol/mod.rs`) -/

/-- The protocol `Error` enum, restricted to the variants produced by the
embedded functions. -/
inductive PError where
  | txTypeError : PError
  | feeError (msg : String) : PError
  | gasError : PError
  | storageError : PError
  | missingAddress (a : Nat) : PError
  | posNativeVpError (msg : String) : PError
  | posNativeVpRuntime : PError
  | otherNativeVpError (msg : String) : PError
  | vpRunnerError (msg : String) : PError
  | accessForbidden : PError
deriving DecidableEq, Repr

/-- Token balances, indexed by token address and owner address.  Balance
writes in `token_transfer` touch exactly the keys
`balance_key(token, src)` and `balance_key(token, dest)`. -/
def Balances := Nat → Nat → Nat

/-- Point update of a balance map at one `(token, owner)` key. -/
def Balances.write (s : Balances) (token owner v : Nat) : Balances :=
  fun t o => if t = token then (if o = owner then v else s t o) else s t o

/-- `token_transfer` (protocol module): debit `src` and credit `dest` in the
tx write log, failing with a `FeeError` on source underflow or destination
overflow; a transfer from an address to itself is a no-op. -/
def token_transfer (s : Balances) (token src dest amount : Nat) :
    Except PError Balances :=
  match checkedSub (s token src) amount with
  | some newSrc =>
    if src = dest then .ok s
    else
      match checkedAdd (s token dest) amount with
      | some newDest =>
        .ok ((s.write token src newSrc).write token dest newDest)
      | none =>
        .error (.feeError "The transfer would overflow destination balance")
  | none => .error (.feeError "Insufficient source balance")

/-- The fields of `WrapperTx` that `transfer_fee` reads.  `WrapperTx` itself
is defined outside the embedded sources: `feeToken` is `wrapper.fee.token`,
`feePayer` the address derived from the fee payer key by
`wrapper.fee_payer()`, and `getTxFee` the result of `wrapper.get_tx_fee()`
(whose computation, per the spec, may overflow and is then handled exactly
like an insufficient balance). -/
structure WrapperTxModel where
  feeToken : Nat
  feePayer : Nat
  getTxFee : Except String Nat
deriving Repr

/-- `transfer_fee`: read the payer's balance; if the fee fits, transfer it to
the block proposer.  If the balance is insufficient (or the fee amount
overflowed) and no proof-of-work exemption applies, drain the payer's entire
available balance to the proposer and report a `FeeError`; with a valid PoW
the call silently succeeds.  The returned state is the write log after the
call, which retains the drain even on the error return (this embeds the
non-`abciplus` fallback that the sources compile by default). -/
def transfer_fee (s : Balances) (blockProposer : Nat) (hasValidPow : Bool)
    (w : WrapperTxModel) : Balances × Except PError Unit :=
  let balance := s w.feeToken w.feePayer
  match w.getTxFee with
  | .ok fees =>
    if (checkedSub balance fees).isSome then
      match token_transfer s w.feeToken w.feePayer blockProposer fees with
      | .ok s1 => (s1, .ok ())
      | .error e => (s, .error e)
    else
      let reject := !hasValidPow
      if reject then
        match token_transfer s w.feeToken w.feePayer blockProposer
            balance with
        | .ok s1 =>
          (s1, .error (.feeError
            ("Transparent balance of wrapper's signer was insufficient"
              ++ " to pay fee. All the available transparent funds have"
              ++ " been moved to the block proposer")))
        | .error e => (s, .error e)
      else (s, .ok ())
  | .error e =>
    match token_transfer s w.feeToken w.feePayer blockProposer balance with
    | .ok s1 =>
      (s1, .error (.feeError (e
        ++ ". All the available transparent funds have been moved to the"
        ++ " block proposer")))
    | .error e2 => (s, .error e2)

/-- `apply_wrapper_tx`, abstracted over the outcome of `charge_fee` and of
the wrapper-size gas charge.  The state is the ordered list of storage keys
written.  The wrapper's own replay-protection key is written first,
unconditionally; `charge_fee` then performs `feeWrites` and yields
`feeResult` (a ``?`` propagation point); `add_tx_size_gas` yields
`gasResult` (another ``?``); only when both succeed is the inner (`Raw`)
header's replay-protection key written.  On success the function returns the
set of changed keys. -/
def apply_wrapper_tx (wrapperHashKey innerHashKey : Nat)
    (feeWrites : List Nat) (feeResult : Except PError Unit)
    (gasResult : Except PError Unit) :
    List Nat × Except PError (List Nat) :=
  match feeResult with
  | .error e => (wrapperHashKey :: feeWrites, .error e)
  | .ok () =>
    match gasResult with
    | .error e => (wrapperHashKey :: feeWrites, .error e)
    | .ok () =>
      (wrapperHashKey :: feeWrites ++ [innerHashKey],
        .ok (wrapperHashKey :: feeWrites ++ [innerHashKey]))

/-! ## VP result merging (`merge_vp_results`) -/

/-- The transaction-scoped gas meter, reduced to the budget against which the
merged VP gas is checked. -/
structure TxGasMeter where
  txGasLimit : Nat
deriving DecidableEq, Repr

/-- The result of running the validity predicates: accepted and rejected
address sets, total gas, and accumulated errors. -/
structure VpsResult where
  accepted_vps : Finset Nat
  rejected_vps : Finset Nat
  gas_used : Nat
  errors : List String
deriving DecidableEq

/-- Modelled from the spec: `VpsGas::merge` (defined in `ledger/gas.rs`,
outside the embedded sources) sums the gas of the two merged results with an
overflow check against the shared transaction gas meter, a failure being the
fatal gas error. -/
def vpsGasMerge (a b : Nat) (m : TxGasMeter) : Except PError Nat :=
  if a + b ≤ m.txGasLimit then .ok (a + b) else .error .gasError

/-- `merge_vp_results`: union the accepted and rejected address sets,
concatenate the error lists, and merge the gas against the transaction gas
meter. -/
def merge_vp_results (a b : VpsResult) (m : TxGasMeter) :
    Except PError VpsResult :=
  match vpsGasMerge a.gas_used b.gas_used m with
  | .error e => .error e
  | .ok g =>
    .ok { accepted_vps := a.accepted_vps ∪ b.accepted_vps
          rejected_vps := a.rejected_vps ∪ b.rejected_vps
          gas_used := g
          errors := a.errors ++ b.errors }

/-! ## VP execution and the PoS panic boundary (`execute_vps`) -/

/-- Addresses as seen by `execute_vps`, distinguishing the proof-of-stake
internal address (the one evaluated behind `panic::catch_unwind`) from every
other address. -/
inductive VpAddr where
  | pos : VpAddr
  | other (n : Nat) : VpAddr
deriving DecidableEq, Repr

/-- The outcome of invoking one VP's `validate_tx` (or the external VP
runner): it may panic, or complete with an accept/reject boolean or a typed
error. -/
inductive RunOutcome where
  | panics : RunOutcome
  | completes (r : Except PError Bool) : RunOutcome

/-- A poisoned evaluation: a panic escaped the fold.  The real `execute_vps`
would crash the process in this case. -/
inductive Panicked where
  | panicked : Panicked
deriving DecidableEq, Repr

/-- One per-address evaluation inside the fold of `execute_vps`.  For the
proof-of-stake address, the call runs under `panic::catch_unwind`, and a
caught panic is converted into the dedicated `PosNativeVpRuntime` error; for
every other address no boundary exists, so a panic escapes. -/
def execVpStep (env : VpAddr → RunOutcome) (addr : VpAddr) :
    Except Panicked (Except PError Bool) :=
  match addr with
  | .pos =>
    match env .pos with
    | .panics => .ok (.error .posNativeVpRuntime)
    | .completes r => .ok r
  | .other _ =>
    match env addr with
    | .panics => .error .panicked
    | .completes r => .ok r

/-- Accumulator of the `execute_vps` fold: accepted and rejected addresses
(the gas bookkeeping is carried by the meters and is orthogonal to the panic
boundary under scrutiny). -/
structure VpsAcc where
  accepted : List VpAddr
  rejected : List VpAddr
deriving DecidableEq, Repr

/-- The (sequentialized) parallel fold of `execute_vps` over the verifier
set: each address is evaluated by `execVpStep`; a typed error short-circuits
the fold as the transaction's result, an accept/reject boolean accumulates,
and a panic that was not caught escapes the whole evaluation. -/
def execute_vps_fold (env : VpAddr → RunOutcome) :
    List VpAddr → VpsAcc → Except Panicked (Except PError VpsAcc)
  | [], acc => .ok (.ok acc)
  | addr :: rest, acc =>
    match execVpStep env addr with
    | .error p => .error p
    | .ok (.error e) => .ok (.error e)
    | .ok (.ok accept) =>
      let acc1 :=
        if accept then { acc with accepted := acc.accepted ++ [addr] }
        else { acc with rejected := acc.rejected ++ [addr] }
      execute_vps_fold env rest acc1

/-! ## Dispatch (`dispatch_tx`) -/

/-- `TxResult`, the success value surfaced to the caller. -/
structure TxResult where
  gas_used : Nat
  changed_keys : List Nat
  vps_result : VpsResult
  initialized_accounts : List Nat
  ibc_events : List Nat
deriving DecidableEq

/-- `TxResult::default()`: the empty result returned for undecryptable
payloads. -/
def TxResult.default : TxResult :=
  { gas_used := 0
    changed_keys := []
    vps_result :=
      { accepted_vps := ∅, rejected_vps := ∅, gas_used := 0, errors := [] }
    initialized_accounts := []
    ibc_events := [] }

/-- `dispatch_tx`, abstracted over its three effectful branches (the wasm
pipeline for decrypted payloads, the protocol-transaction application, and
the wrapper fee/gas pipeline), each a transformer of an arbitrary state
type: a `Raw` transaction is refused with `TxTypeError` and an undecryptable
decrypted transaction yields the default `TxResult`, in both cases without
invoking any branch or touching the state. -/
def dispatch_tx {σ : Type} (tx : Tx)
    (applyWasm applyProtocol applyWrapper : σ → σ × Except PError TxResult)
    (s : σ) : σ × Except PError TxResult :=
  match tx.header.txType with
  | .raw => (s, .error .txTypeError)
  | .decrypted (.decrypted _) => applyWasm s
  | .protocol _ => applyProtocol s
  | .wrapper _ => applyWrapper s
  | .decrypted .undecryptable => (s, .ok TxResult.default)

/-! ## The Ethereum bridge-pool native VP
(`shared/src/ledger/native_vp/ethereum_bridge/bridge_pool_vp.rs`) -/

/-- `TransferToEthereum`: the asset being bridged, its kind tag
(ERC20 / NUT), recipient, sender and amount. -/
structure TransferToEthereum where
  kind : Nat
  asset : Nat
  recipient : Nat
  sender : Nat
  amount : Nat
deriving DecidableEq, Repr

/-- `GasFee`: the NAM fee escrowed to pay Ethereum-side gas. -/
structure GasFee where
  amount : Nat
  payer : Nat
deriving DecidableEq, Repr

/-- `PendingTransfer`: the record decoded from the transaction's data
section. -/
structure PendingTransfer where
  transfer : TransferToEthereum
  gas_fee : GasFee
deriving DecidableEq, Repr

/-- Modelled from the spec: `PendingTransfer::token_address` (defined in the
`eth_bridge_pool` types module, outside the embedded sources) derives the
multitoken address of the bridged asset from its kind and its Ethereum
address; only the injectivity of the derivation matters here. -/
def PendingTransfer.token_address (pt : PendingTransfer) : Nat :=
  hcomb 100 (hcomb pt.transfer.kind pt.transfer.asset)

/-- Storage keys read by the bridge-pool VP: the pending-transfer key
derived from a transfer (`get_pending_key`), the other keys of the bridge
pool's namespace (e.g. the signed-root key), token balance keys, and
everything else. -/
inductive BPKey where
  | pending (pt : PendingTransfer) : BPKey
  | bridgePoolInternal (n : Nat) : BPKey
  | balance (token owner : Nat) : BPKey
  | other (n : Nat) : BPKey
deriving DecidableEq, Repr

/-- `is_bridge_pool_key`: whether a key lives under the bridge pool's
storage namespace. -/
def BPKey.is_bridge_pool_key : BPKey → Bool
  | .pending _ => true
  | .bridgePoolInternal _ => true
  | _ => false

/-- A value held in storage: a pending transfer or a token amount. -/
inductive BPVal where
  | transfer (pt : PendingTransfer) : BPVal
  | amount (n : Nat) : BPVal
deriving DecidableEq, Repr

/-- The VP's view of the world: pre- and post-transaction storage snapshots,
the chain's native token address, and the wrapped-native ERC20 address read
by `read_native_erc20_address` from the pre-state. -/
structure BPCtx where
  pre : BPKey → Option BPVal
  post : BPKey → Option BPVal
  nativeToken : Nat
  wnam : Nat

/-- `ctx.read_pre_value::<PendingTransfer>`: absent keys read as `None`; a
value of the wrong shape is a decoding failure, surfaced as an `Err`. -/
def BPCtx.readPreTransfer (ctx : BPCtx) (k : BPKey) :
    Except String (Option PendingTransfer) :=
  match ctx.pre k with
  | none => .ok none
  | some (.transfer pt) => .ok (some pt)
  | some (.amount _) => .error "could not decode a PendingTransfer"

/-- `ctx.read_post_value::<PendingTransfer>`, as above on the post-state. -/
def BPCtx.readPostTransfer (ctx : BPCtx) (k : BPKey) :
    Except String (Option PendingTransfer) :=
  match ctx.post k with
  | none => .ok none
  | some (.transfer pt) => .ok (some pt)
  | some (.amount _) => .error "could not decode a PendingTransfer"

/-- An `Amount` read used by the balance-delta computations: the source
converts a read error into `None` (with a warning), so both an absent key
and an undecodable value read as `none`. -/
def readAmountOrNone (m : BPKey → Option BPVal) (k : BPKey) : Option Nat :=
  match m k with
  | some (.amount n) => some n
  | _ => none

/-- A positive or negative balance delta. -/
inductive SignedAmount where
  | positive (n : Nat) : SignedAmount
  | negative (n : Nat) : SignedAmount
deriving DecidableEq, Repr

/-- The delta of the balance held at a key between the pre- and post-state;
`none` when either side cannot be read. -/
def BPCtx.key_balance_delta (ctx : BPCtx) (k : BPKey) :
    Option SignedAmount :=
  match readAmountOrNone ctx.pre k, readAmountOrNone ctx.post k with
  | some before, some after =>
    if after < before then some (.negative (before - after))
    else some (.positive (after - before))
  | _, _ => none

/-- `BridgePoolVp::account_balance_delta`: the native-token balance delta of
an address. -/
def BPCtx.account_balance_delta (ctx : BPCtx) (address : Nat) :
    Option SignedAmount :=
  ctx.key_balance_delta (.balance ctx.nativeToken address)

/-- `EscrowDelta`: the debit and credit expected of a payer/escrow pair. -/
structure EscrowDelta where
  payer_account : Nat
  escrow_account : Nat
  expected_debit : Nat
  expected_credit : Nat
deriving DecidableEq, Repr

/-- `EscrowCheck`: the gas-fee check and the token check. -/
structure EscrowCheck where
  gas_check : EscrowDelta
  token_check : EscrowDelta
deriving DecidableEq, Repr

/-- The bridge pool's own escrow address and the Ethereum bridge VP's
address, two distinct internal addresses. -/
def BRIDGE_POOL_ADDRESS : Nat := 1000000007

/-- The Ethereum bridge VP's internal address. -/
def BRIDGE_ADDRESS : Nat := 1000000009

/-- `BridgePoolVp::check_nam_escrowed`: the payer must show a debit and the
escrow a credit, equal to the expected amounts; an account whose delta
cannot be computed is a hard error, not a rejection. -/
def BPCtx.check_nam_escrowed (ctx : BPCtx) (delta : EscrowDelta) :
    Except String Bool :=
  match ctx.account_balance_delta delta.payer_account,
      ctx.account_balance_delta delta.escrow_account with
  | some (.negative debit), some (.positive credit) =>
    .ok (debit = delta.expected_debit && credit = delta.expected_credit)
  | some (.positive _), _ => .ok false
  | _, some (.negative _) => .ok false
  | none, _ => .error "could not calculate the balance delta"
  | _, none => .error "could not calculate the balance delta"

/-- `BridgePoolVp::escrow_check`: the debit/credit amounts to verify.  When
the gas payer and the sender coincide and the asset is the wrapped native
token, a single combined debit (gas fee plus transfer amount, overflow being
a hard error) backs both checks; otherwise the two checks are
independent, the token escrow account being the Ethereum bridge VP for the
wrapped native token and the bridge pool otherwise. -/
def BPCtx.escrow_check (_ctx : BPCtx) (wnamAddress : Nat)
    (transfer : PendingTransfer) : Except String EscrowCheck :=
  let isNativeAsset := transfer.transfer.asset = wnamAddress
  if transfer.gas_fee.payer = transfer.transfer.sender ∧ isNativeAsset then
    match checkedAdd transfer.gas_fee.amount transfer.transfer.amount with
    | none => .error "addition overflowed adding gas fee and amount"
    | some debit =>
      .ok { gas_check :=
              { payer_account := transfer.gas_fee.payer
                escrow_account := BRIDGE_POOL_ADDRESS
                expected_debit := debit
                expected_credit := transfer.gas_fee.amount }
            token_check :=
              { payer_account := transfer.transfer.sender
                escrow_account := BRIDGE_ADDRESS
                expected_debit := debit
                expected_credit := transfer.transfer.amount } }
  else
    .ok { gas_check :=
            { payer_account := transfer.gas_fee.payer
              escrow_account := BRIDGE_POOL_ADDRESS
              expected_debit := transfer.gas_fee.amount
              expected_credit := transfer.gas_fee.amount }
          token_check :=
            { payer_account := transfer.transfer.sender
              escrow_account :=
                if isNativeAsset then BRIDGE_ADDRESS
                else BRIDGE_POOL_ADDRESS
              expected_debit := transfer.transfer.amount
              expected_credit := transfer.transfer.amount } }

/-- Modelled from the spec: `check_balance_changes` (defined in the Ethereum
bridge VP module, outside the embedded sources) computes the common delta of
an owner key and an escrow key — the amount by which the owner's balance
decreased and the escrow's increased, when those two agree — and errors when
a delta cannot be determined. -/
def BPCtx.check_balance_changes (ctx : BPCtx) (ownerKey escrowKey : BPKey) :
    Except String (Option Nat) :=
  match ctx.key_balance_delta ownerKey, ctx.key_balance_delta escrowKey with
  | some (.negative a), some (.positive b) =>
    .ok (if a = b then some a else none)
  | none, _ => .error "could not calculate the balance delta"
  | _, none => .error "could not calculate the balance delta"
  | _, _ => .ok none

/-- `BridgePoolVp::check_erc20s_escrowed`: both the owner and the bridge
pool escrow balance keys of the bridged token must have changed, and their
common delta must equal the transfer amount. -/
def BPCtx.check_erc20s_escrowed (ctx : BPCtx) (keysChanged : List BPKey)
    (transfer : PendingTransfer) : Except String Bool :=
  let token := transfer.token_address
  let ownerKey := BPKey.balance token transfer.transfer.sender
  let escrowKey := BPKey.balance token BRIDGE_POOL_ADDRESS
  if keysChanged.contains ownerKey ∧ keysChanged.contains escrowKey then
    match ctx.check_balance_changes ownerKey escrowKey with
    | .error e => .error e
    | .ok (some amount) => .ok (amount = transfer.transfer.amount)
    | .ok none => .ok false
  else .ok false

/-- `BridgePoolVp::validate_tx`.  The transaction's data section is decoded
as a `PendingTransfer` (`none` models absent data, a hard error; the claims
under scrutiny concern successfully decoded transfers).  Then, in order:
reject if the transfer is already in the pool pre-transaction; reject if any
other bridge-pool key changed; a post-state with no entry at the transfer's
pending key is a hard error; reject if the entry differs from the decoded
transfer; finally verify the gas-fee and token escrow deltas. -/
def bp_validate_tx (ctx : BPCtx) (txData : Option PendingTransfer)
    (keysChanged : List BPKey) : Except String Bool :=
  match txData with
  | none => .error "No transaction data found"
  | some transfer =>
    let pendingKey := BPKey.pending transfer
    match ctx.readPreTransfer pendingKey with
    | .error e => .error e
    | .ok (some _) => .ok false
    | .ok none =>
      if keysChanged.any
          (fun k => k.is_bridge_pool_key && decide (k ≠ pendingKey)) then
        .ok false
      else
        match ctx.readPostTransfer pendingKey with
        | .error e => .error e
        | .ok none =>
          .error "transfer was not added to the pool of pending transfers"
        | .ok (some pending) =>
          if pending ≠ transfer then .ok false
          else
            match ctx.escrow_check ctx.wnam transfer with
            | .error e => .error e
            | .ok escrowChecks =>
              match ctx.check_nam_escrowed escrowChecks.gas_check with
              | .error e => .error e
              | .ok false => .ok false
              | .ok true =>
                if transfer.transfer.asset = ctx.wnam then
                  ctx.check_nam_escrowed escrowChecks.token_check
                else ctx.check_erc20s_escrowed keysChanged transfer

/-! ## Derived counting functions over the envelope model -/

/-- The number of signatures in a list that verify against the given key map
and digest. -/
def countValidIn (map : List Nat) (raw : Nat)
    (sigs : List SignatureIndex) : Nat :=
  (sigs.filter fun si => si.verifyIdx map raw).length

/-- The total number of valid signatures contained in the multisig sections
of a section list, each counted against its own section's raw hash. -/
def totalValidSigs (map : List Nat) : List Section → Nat
  | [] => 0
  | .sectionSignature m :: rest =>
    countValidIn map m.get_raw_hash m.signatures + totalValidSigs map rest
  | _ :: rest => totalValidSigs map rest

/-- Whether a section is a `SectionSignature` (multisig) section. -/
def Section.isMultisig : Section → Bool
  | .sectionSignature _ => true
  | _ => false

/-! ## Concrete fixtures used by witnesses and counterexamples -/

/-- A balance map holding 5 units everywhere, for the fee counterexample. -/
def cexBalances : Balances := fun _ _ => 5

/-- A wrapper whose fee payer (address 3) pays a fee of 5 units of token 0. -/
def cexWrapper : WrapperTxModel :=
  { feeToken := 0, feePayer := 3, getTxFee := .ok 5 }

/-- A balance map in which address 9 already holds the maximal 256-bit
amount, so that crediting it overflows. -/
def cexBalancesFull : Balances := fun _ o => if o = 9 then maxAmount else 5

/-- A header of a raw transaction with small concrete fields. -/
def rawHeader : Header :=
  { chainId := 0, expiration := none, timestamp := 0, codeHash := 0,
    dataHash := 0, txType := .raw }

/-- The raw hash every multisig with an empty target list signs over. -/
def rawHash0 : Nat := MultiSignature.get_hash { targets := [], signatures := [] }

/-- A multisig section with one signature, by the key 7 at index 0, over the
empty target list. -/
def msig0 : MultiSignature :=
  { targets := []
    signatures := [{ signature := { pk := 7, msg := rawHash0 }, index := 0 }] }

/-- A one-section transaction carrying `msig0`. -/
def txMsig : Tx := { header := rawHeader, sections := [.sectionSignature msig0] }

/-- A signature section whose recorded target 999 resolves to no section. -/
def sigDangling : SignatureSec :=
  { targets := [999], signature := some { pk := 5, msg := 0 } }

/-- A transaction holding only `sigDangling`. -/
def txDangling : Tx :=
  { header := rawHeader, sections := [.signature sigDangling] }

/-- A one-code-section transaction for the wallet-filter witness. -/
def txCode1 : Tx :=
  { header := rawHeader, sections := [.code ⟨1, .id [2]⟩] }

/-- A sectionless raw transaction. -/
def txRawEmpty : Tx := { header := rawHeader, sections := [] }

/-- A sectionless transaction whose decrypted payload is undecryptable. -/
def txUndecryptable : Tx :=
  { header := { rawHeader with txType := .decrypted .undecryptable },
    sections := [] }

/-- A state-mutating stand-in for the effectful branches of `dispatch_tx`. -/
def bumpBranch (k : Nat) : Nat → Nat × Except PError TxResult :=
  fun n => (n + k, .error .gasError)

/-- A VP environment in which the proof-of-stake VP panics and every other
VP accepts. -/
def envPosPanics : VpAddr → RunOutcome
  | .pos => .panics
  | .other _ => .completes (.ok true)

/-- A concrete pending transfer. -/
def bpTransfer0 : PendingTransfer :=
  { transfer := ⟨0, 1, 2, 3, 4⟩, gas_fee := ⟨5, 6⟩ }

/-- A bridge-pool context whose pre-state already holds `bpTransfer0` at its
pending key. -/
def bpCtxDup : BPCtx :=
  { pre := fun k =>
      if k = .pending bpTransfer0 then some (.transfer bpTransfer0) else none
    post := fun _ => none
    nativeToken := 0
    wnam := 0 }

/-- A bridge-pool context with empty pre- and post-states. -/
def bpCtxEmpty : BPCtx :=
  { pre := fun _ => none, post := fun _ => none, nativeToken := 0, wnam := 0 }

/-! # Theorems -/

/-! ## Helper lemmas -/

theorem Balances.write_self (s : Balances) (t o v : Nat) :
    (s.write t o v) t o = v := by
  simp [Balances.write]

theorem Balances.write_ne (s : Balances) (t o v t1 o1 : Nat)
    (h : ¬ (t1 = t ∧ o1 = o)) : (s.write t o v) t1 o1 = s t1 o1 := by
  unfold Balances.write
  by_cases ht : t1 = t
  · have ho : ¬ o1 = o := fun ho => h ⟨ht, ho⟩
    simp [ht, ho]
  · simp [ht]

theorem Commitment.contract_hashC (c : Commitment) :
    c.contract.hashC = c.hashC := by
  cases c <;> rfl

theorem Commitment.contract_isHash (c : Commitment) :
    ∃ h, c.contract = .hash h := by
  cases c <;> exact ⟨_, rfl⟩

theorem Section.walletContract_hash (s : Section) :
    s.walletContract.get_hash = s.get_hash := by
  cases s <;>
    simp [Section.walletContract, Section.get_hash, CodeSec.hashS,
      Commitment.contract_hashC]

/-! ## C5 — commitment round trip and mismatch rejection -/

/-- C5: for every byte sequence `b`, contracting `Commitment::Id(b)` and then
expanding with `b` succeeds and restores `Id(b)` exactly; and expanding a
commitment whose held digest is not the hash of the supplied bytes (and whose
held bytes differ from them) returns a `CommitmentError` and leaves the
commitment unchanged — `expand` never silently substitutes different
bytes. -/
theorem commitment_contract_expand_roundtrip :
    (∀ b : List Nat,
      ((Commitment.id b).contract).expand b = (Commitment.id b, none))
    ∧ (∀ (c : Commitment) (code : List Nat),
      (∀ h, c = .hash h → h ≠ hash_tx code) →
      (∀ b, c = .id b → b ≠ code) →
      c.expand code = (c, some ())) := by
  constructor
  · intro b
    simp [Commitment.contract, Commitment.expand]
  · intro c code hHash hId
    cases c with
    | hash h => simp [Commitment.expand, hHash h rfl]
    | id b => simp [Commitment.expand, hId b rfl]

/-- C5 witness: the round trip at `b = [1, 2]`, and a mismatched expansion at
digest 0 against the empty byte string. -/
theorem commitment_contract_expand_roundtrip_witness :
    ((Commitment.id [1, 2]).contract).expand [1, 2]
        = (Commitment.id [1, 2], none)
    ∧ (Commitment.hash 0).expand [] = (Commitment.hash 0, some ()) :=
  ⟨commitment_contract_expand_roundtrip.1 [1, 2],
    commitment_contract_expand_roundtrip.2 (Commitment.hash 0) []
      (by intro h hh; injection hh with h1; subst h1; decide)
      (fun b hb => Commitment.noConfusion hb)⟩

/-! ## C4 — commutativity of `merge_vp_results` -/

/-- C4: for any two `VpsResult` values whose combined gas fits the
transaction gas meter, merging in either order succeeds and yields the same
accepted-VP set, the same rejected-VP set, and the same total gas. -/
theorem merge_vp_results_commutative (a b : VpsResult) (m : TxGasMeter)
    (hfit : a.gas_used + b.gas_used ≤ m.txGasLimit) :
    ∃ rab rba, merge_vp_results a b m = .ok rab
      ∧ merge_vp_results b a m = .ok rba
      ∧ rab.accepted_vps = rba.accepted_vps
      ∧ rab.rejected_vps = rba.rejected_vps
      ∧ rab.gas_used = rba.gas_used := by
  have hfit2 : b.gas_used + a.gas_used ≤ m.txGasLimit := by omega
  refine ⟨⟨a.accepted_vps ∪ b.accepted_vps, a.rejected_vps ∪ b.rejected_vps,
      a.gas_used + b.gas_used, a.errors ++ b.errors⟩,
    ⟨b.accepted_vps ∪ a.accepted_vps, b.rejected_vps ∪ a.rejected_vps,
      b.gas_used + a.gas_used, b.errors ++ a.errors⟩, ?_, ?_, ?_, ?_, ?_⟩
  · simp [merge_vp_results, vpsGasMerge, hfit]
  · simp [merge_vp_results, vpsGasMerge, hfit2]
  · exact Finset.union_comm _ _
  · exact Finset.union_comm _ _
  · exact Nat.add_comm _ _

/-- C4 witness: two concrete results with gas 2 and 3 merged against a
10-unit budget. -/
theorem merge_vp_results_commutative_witness :
    (VpsResult.gas_used ⟨{1}, {2}, 2, []⟩
        + VpsResult.gas_used ⟨{3}, ∅, 3, []⟩
        ≤ TxGasMeter.txGasLimit ⟨10⟩)
    ∧ ∃ rab rba,
        merge_vp_results ⟨{1}, {2}, 2, []⟩ ⟨{3}, ∅, 3, []⟩ ⟨10⟩ = .ok rab
        ∧ merge_vp_results ⟨{3}, ∅, 3, []⟩ ⟨{1}, {2}, 2, []⟩ ⟨10⟩ = .ok rba
        ∧ rab.accepted_vps = rba.accepted_vps
        ∧ rab.rejected_vps = rba.rejected_vps
        ∧ rab.gas_used = rba.gas_used :=
  ⟨by decide,
    merge_vp_results_commutative ⟨{1}, {2}, 2, []⟩ ⟨{3}, ∅, 3, []⟩ ⟨10⟩
      (by decide)⟩

/-! ## C2 — replay-protection markers in `apply_wrapper_tx` -/

/-- C2: the wrapper's own replay-protection key is the first write and
survives every later failure; the inner (`Raw`) header's key is written
exactly when both fee charging and the wrapper-size gas charge succeed; and
on an error the writes are exactly the wrapper marker followed by the
committed fee-charging writes. -/
theorem apply_wrapper_tx_markers (wk ik : Nat) (fw : List Nat)
    (fr gr : Except PError Unit) (hik : ik ∉ fw) (hwk : ik ≠ wk) :
    (apply_wrapper_tx wk ik fw fr gr).1.head? = some wk
    ∧ (ik ∈ (apply_wrapper_tx wk ik fw fr gr).1
        ↔ fr = .ok () ∧ gr = .ok ())
    ∧ (∀ e, (apply_wrapper_tx wk ik fw fr gr).2 = .error e →
        (apply_wrapper_tx wk ik fw fr gr).1 = wk :: fw) := by
  cases fr with
  | error e => simp [apply_wrapper_tx, hik, hwk]
  | ok u =>
    cases u
    cases gr with
    | error e => simp [apply_wrapper_tx, hik, hwk]
    | ok u => cases u; simp [apply_wrapper_tx]

/-- C2 witness: keys 1 (wrapper) and 2 (inner), fee writes `[3]`, both steps
succeeding. -/
theorem apply_wrapper_tx_markers_witness :
    ((2 : Nat) ∉ [3] ∧ (2 : Nat) ≠ 1)
    ∧ ((apply_wrapper_tx 1 2 [3] (.ok ()) (.ok ())).1.head? = some 1
      ∧ ((2 : Nat) ∈ (apply_wrapper_tx 1 2 [3] (.ok ()) (.ok ())).1
          ↔ (Except.ok () : Except PError Unit) = .ok ()
            ∧ (Except.ok () : Except PError Unit) = .ok ())
      ∧ (∀ e, (apply_wrapper_tx 1 2 [3] (.ok ()) (.ok ())).2 = .error e →
          (apply_wrapper_tx 1 2 [3] (.ok ()) (.ok ())).1 = 1 :: [3])) :=
  ⟨⟨by decide, by decide⟩,
    apply_wrapper_tx_markers 1 2 [3] (.ok ()) (.ok ()) (by decide)
      (by decide)⟩

/-! ## C1 — fee transfer -/

/-- C1 (amended): for every wrapper transaction whose fee payer is distinct
from the block proposer, with payer balance `B` and successfully computed
fee `F`: if `B >= F` and crediting the proposer does not overflow, after
`transfer_fee` the payer's balance is `B - F`, the proposer's balance has
increased by `F`, and no other balance changed; if `B < F`, no
proof-of-work exemption is present, and crediting the proposer with `B`
does not overflow, the payer's entire available balance is moved to the
proposer (payer balance becomes 0) and the call returns a fee error. -/
theorem transfer_fee_amended :
    (∀ (s : Balances) (proposer : Nat) (pow : Bool) (w : WrapperTxModel)
      (F : Nat),
      w.getTxFee = .ok F →
      w.feePayer ≠ proposer →
      F ≤ s w.feeToken w.feePayer →
      s w.feeToken proposer + F ≤ maxAmount →
      (transfer_fee s proposer pow w).2 = .ok ()
      ∧ (transfer_fee s proposer pow w).1 w.feeToken w.feePayer
          = s w.feeToken w.feePayer - F
      ∧ (transfer_fee s proposer pow w).1 w.feeToken proposer
          = s w.feeToken proposer + F
      ∧ ∀ t o, ¬ (t = w.feeToken ∧ (o = w.feePayer ∨ o = proposer)) →
          (transfer_fee s proposer pow w).1 t o = s t o)
    ∧ (∀ (s : Balances) (proposer : Nat) (w : WrapperTxModel) (F : Nat),
      w.getTxFee = .ok F →
      w.feePayer ≠ proposer →
      s w.feeToken w.feePayer < F →
      s w.feeToken proposer + s w.feeToken w.feePayer ≤ maxAmount →
      (∃ msg, (transfer_fee s proposer false w).2 = .error (.feeError msg))
      ∧ (transfer_fee s proposer false w).1 w.feeToken w.feePayer = 0
      ∧ (transfer_fee s proposer false w).1 w.feeToken proposer
          = s w.feeToken proposer + s w.feeToken w.feePayer
      ∧ ∀ t o, ¬ (t = w.feeToken ∧ (o = w.feePayer ∨ o = proposer)) →
          (transfer_fee s proposer false w).1 t o = s t o) := by
  constructor
  · intro s proposer pow w F hFee hne hle hov
    have hsub : checkedSub (s w.feeToken w.feePayer) F
        = some (s w.feeToken w.feePayer - F) := by simp [checkedSub, hle]
    have hadd : checkedAdd (s w.feeToken proposer) F
        = some (s w.feeToken proposer + F) := by simp [checkedAdd, hov]
    have htt : token_transfer s w.feeToken w.feePayer proposer F
        = .ok ((s.write w.feeToken w.feePayer
            (s w.feeToken w.feePayer - F)).write w.feeToken proposer
            (s w.feeToken proposer + F)) := by
      simp [token_transfer, hsub, hadd, hne]
    have htf : transfer_fee s proposer pow w
        = ((s.write w.feeToken w.feePayer
            (s w.feeToken w.feePayer - F)).write w.feeToken proposer
            (s w.feeToken proposer + F), .ok ()) := by
      simp [transfer_fee, hFee, hsub, htt]
    have h1 : (transfer_fee s proposer pow w).1
        = (s.write w.feeToken w.feePayer
            (s w.feeToken w.feePayer - F)).write w.feeToken proposer
            (s w.feeToken proposer + F) := by rw [htf]
    refine ⟨by rw [htf], ?_, ?_, ?_⟩
    · rw [h1, Balances.write_ne _ _ _ _ _ _ (fun h => hne h.2),
        Balances.write_self]
    · rw [h1, Balances.write_self]
    · intro t o ho
      rw [h1, Balances.write_ne _ _ _ _ _ _ (fun h => ho ⟨h.1, Or.inr h.2⟩),
        Balances.write_ne _ _ _ _ _ _ (fun h => ho ⟨h.1, Or.inl h.2⟩)]
  · intro s proposer w F hFee hne hlt hov
    have hsub : checkedSub (s w.feeToken w.feePayer) F = none := by
      simp [checkedSub]; omega
    have hsub2 : checkedSub (s w.feeToken w.feePayer)
        (s w.feeToken w.feePayer) = some 0 := by simp [checkedSub]
    have hadd : checkedAdd (s w.feeToken proposer)
        (s w.feeToken w.feePayer)
        = some (s w.feeToken proposer + s w.feeToken w.feePayer) := by
      simp [checkedAdd, hov]
    have htt : token_transfer s w.feeToken w.feePayer proposer
        (s w.feeToken w.feePayer)
        = .ok ((s.write w.feeToken w.feePayer 0).write w.feeToken proposer
            (s w.feeToken proposer + s w.feeToken w.feePayer)) := by
      simp [token_transfer, hsub2, hadd, hne]
    have htf : (transfer_fee s proposer false w).1
          = ((s.write w.feeToken w.feePayer 0).write w.feeToken proposer
            (s w.feeToken proposer + s w.feeToken w.feePayer))
        ∧ ∃ msg, (transfer_fee s proposer false w).2
          = .error (.feeError msg) := by
      simp [transfer_fee, hFee, hsub, htt]
    refine ⟨htf.2, ?_, ?_, ?_⟩
    · rw [htf.1,
        Balances.write_ne _ _ _ _ _ _ (fun h => hne h.2),
        Balances.write_self]
    · rw [htf.1, Balances.write_self]
    · intro t o ho
      rw [htf.1,
        Balances.write_ne _ _ _ _ _ _ (fun h => ho ⟨h.1, Or.inr h.2⟩),
        Balances.write_ne _ _ _ _ _ _ (fun h => ho ⟨h.1, Or.inl h.2⟩)]

/-- C1 counterexample: the claim as stated fails at two concrete inputs
with `B >= F`.  First, when the fee payer is the block proposer himself
(payer = proposer = address 3, balance 5, fee 5), `token_transfer`
short-circuits on `src == dest` and the payer's post-balance is 5, not
`B - F = 0`.  Second, when the proposer's balance is already the maximal
256-bit amount, crediting it overflows, `transfer_fee` returns an error and
the payer's balance is unchanged, again not `B - F`. -/
theorem transfer_fee_claim_counterexample :
    (cexWrapper.getTxFee = .ok 5
      ∧ 5 ≤ cexBalances cexWrapper.feeToken cexWrapper.feePayer
      ∧ (transfer_fee cexBalances cexWrapper.feePayer false cexWrapper).1
          cexWrapper.feeToken cexWrapper.feePayer
        ≠ cexBalances cexWrapper.feeToken cexWrapper.feePayer - 5)
    ∧ (5 ≤ cexBalancesFull cexWrapper.feeToken cexWrapper.feePayer
      ∧ (transfer_fee cexBalancesFull 9 false cexWrapper).1
          cexWrapper.feeToken cexWrapper.feePayer
        ≠ cexBalancesFull cexWrapper.feeToken cexWrapper.feePayer - 5) :=
  ⟨⟨rfl, by decide, by decide⟩, ⟨by decide, by decide⟩⟩

/-- C1 witness: a successful fee payment (balance 10, fee 4, payer 1,
proposer 2) and a draining failure (balance 3, fee 4). -/
theorem transfer_fee_amended_witness :
    ((WrapperTxModel.mk 0 1 (.ok 4)).getTxFee = .ok 4
      ∧ (1 : Nat) ≠ 2 ∧ (4 : Nat) ≤ 10 ∧ 10 + 4 ≤ maxAmount
      ∧ (3 : Nat) < 4 ∧ 3 + 3 ≤ maxAmount)
    ∧ ((transfer_fee (fun _ _ => 10) 2 false ⟨0, 1, .ok 4⟩).2 = .ok ()
      ∧ (transfer_fee (fun _ _ => 10) 2 false ⟨0, 1, .ok 4⟩).1 0 1 = 10 - 4
      ∧ (transfer_fee (fun _ _ => 10) 2 false ⟨0, 1, .ok 4⟩).1 0 2 = 10 + 4)
    ∧ ((∃ msg, (transfer_fee (fun _ _ => 3) 2 false ⟨0, 1, .ok 4⟩).2
          = .error (.feeError msg))
      ∧ (transfer_fee (fun _ _ => 3) 2 false ⟨0, 1, .ok 4⟩).1 0 1 = 0
      ∧ (transfer_fee (fun _ _ => 3) 2 false ⟨0, 1, .ok 4⟩).1 0 2 = 3 + 3) :=
  ⟨⟨rfl, by decide, by decide, by decide, by decide, by decide⟩,
    (fun h => ⟨h.1, h.2.1, h.2.2.1⟩)
      (transfer_fee_amended.1 (fun _ _ => 10) 2 false ⟨0, 1, .ok 4⟩ 4 rfl
        (by decide) (by decide) (by decide)),
    (fun h => ⟨h.1, h.2.1, h.2.2.1⟩)
      (transfer_fee_amended.2 (fun _ _ => 3) 2 ⟨0, 1, .ok 4⟩ 4 rfl
        (by decide) (by decide) (by decide))⟩

/-! ## C3 — quorum and gas semantics of `verify_section_signatures` -/

theorem countValidIn_cons (map : List Nat) (raw : Nat)
    (si : SignatureIndex) (rest : List SignatureIndex) :
    countValidIn map raw (si :: rest)
      = (if si.verifyIdx map raw then 1 else 0)
        + countValidIn map raw rest := by
  unfold countValidIn
  rw [List.filter_cons]
  by_cases hv : si.verifyIdx map raw <;> simp [hv, Nat.add_comm]

theorem countValidIn_le_length (map : List Nat) (raw : Nat)
    (sigs : List SignatureIndex) :
    countValidIn map raw sigs ≤ sigs.length :=
  List.length_filter_le _ _

theorem sigLoop_ret_ok_bound (map : List Nat) (raw th : Nat) :
    ∀ (sigs : List SignatureIndex) (valid : Nat) (gas gas1 : VpGasMeter),
      sigLoop map raw th sigs valid gas = .ret (.ok ()) gas1 →
      th ≤ valid + countValidIn map raw sigs := by
  intro sigs
  induction sigs with
  | nil => intro valid gas gas1 h; simp [sigLoop] at h
  | cons si rest ih =>
    intro valid gas gas1 h
    rw [countValidIn_cons]
    cases hcon : gas.consume VERIFY_TX_SIG_GAS_COST with
    | error e => simp only [sigLoop, hcon] at h; simp at h
    | ok gas2 =>
      simp only [sigLoop, hcon] at h
      by_cases hv : si.verifyIdx map raw = true
      · simp [hv] at h ⊢
        by_cases hth : th ≤ valid + 1
        · have := countValidIn_le_length map raw rest
          omega
        · rw [if_neg hth] at h
          have := ih _ _ _ h
          omega
      · simp [hv] at h ⊢
        by_cases hth : th ≤ valid
        · omega
        · rw [if_neg hth] at h
          have := ih _ _ _ h
          omega

theorem sigLoop_cont_count (map : List Nat) (raw th : Nat) :
    ∀ (sigs : List SignatureIndex) (valid : Nat) (gas : VpGasMeter)
      (valid1 : Nat) (gas1 : VpGasMeter),
      sigLoop map raw th sigs valid gas = .cont valid1 gas1 →
      valid1 = valid + countValidIn map raw sigs := by
  intro sigs
  induction sigs with
  | nil =>
    intro valid gas valid1 gas1 h
    simp only [sigLoop] at h
    injection h with h1 h2
    simp [countValidIn, h1.symm]
  | cons si rest ih =>
    intro valid gas valid1 gas1 h
    rw [countValidIn_cons]
    cases hcon : gas.consume VERIFY_TX_SIG_GAS_COST with
    | error e => simp only [sigLoop, hcon] at h; simp at h
    | ok gas2 =>
      simp only [sigLoop, hcon] at h
      by_cases hv : si.verifyIdx map raw = true
      · simp [hv] at h ⊢
        by_cases hth : th ≤ valid + 1
        · rw [if_pos hth] at h; simp at h
        · rw [if_neg hth] at h
          have := ih _ _ _ _ h
          omega
      · simp [hv] at h ⊢
        by_cases hth : th ≤ valid
        · rw [if_pos hth] at h; simp at h
        · rw [if_neg hth] at h
          have := ih _ _ _ _ h
          omega

theorem sigLoop_reaches_quorum (map : List Nat) (raw th : Nat) :
    ∀ (sigs : List SignatureIndex) (valid : Nat) (gas : VpGasMeter),
      gas.consumed + sigs.length * VERIFY_TX_SIG_GAS_COST ≤ gas.limit →
      valid < th →
      th ≤ valid + countValidIn map raw sigs →
      ∃ gas1, sigLoop map raw th sigs valid gas = .ret (.ok ()) gas1 := by
  intro sigs
  induction sigs with
  | nil =>
    intro valid gas _ hlt hle
    simp [countValidIn] at hle
    omega
  | cons si rest ih =>
    intro valid gas hgas hlt hle
    have hmul : (rest.length + 1) * VERIFY_TX_SIG_GAS_COST
        = rest.length * VERIFY_TX_SIG_GAS_COST + VERIFY_TX_SIG_GAS_COST :=
      Nat.succ_mul _ _
    simp only [List.length_cons] at hgas
    have hcost : gas.consumed + VERIFY_TX_SIG_GAS_COST ≤ gas.limit := by
      omega
    have hcon : gas.consume VERIFY_TX_SIG_GAS_COST
        = .ok ⟨gas.limit, gas.consumed + VERIFY_TX_SIG_GAS_COST⟩ := by
      simp [VpGasMeter.consume, hcost]
    rw [countValidIn_cons] at hle
    by_cases hv : si.verifyIdx map raw = true
    · by_cases hth : th ≤ valid + 1
      · exact ⟨⟨gas.limit, gas.consumed + VERIFY_TX_SIG_GAS_COST⟩, by
          simp [sigLoop, hcon, hv, hth]⟩
      · obtain ⟨gas1, hq⟩ := ih (valid + 1)
          ⟨gas.limit, gas.consumed + VERIFY_TX_SIG_GAS_COST⟩
          (by simp; omega) (by omega) (by simp [hv] at hle; omega)
        exact ⟨gas1, by
          simp [sigLoop, hcon, hv, hth]; exact hq⟩
    · have hth : ¬ th ≤ valid := by omega
      obtain ⟨gas1, hq⟩ := ih valid
        ⟨gas.limit, gas.consumed + VERIFY_TX_SIG_GAS_COST⟩
        (by simp; omega) hlt (by simp [hv] at hle; omega)
      exact ⟨gas1, by
        simp [sigLoop, hcon, hv, hth]; exact hq⟩

theorem secLoop_skip (tx : Tx) (hashes map : List Nat) (th maxS : Nat) :
    ∀ (pre rest : List Section) (valid : Nat) (gas : VpGasMeter),
      (∀ s ∈ pre, s.isMultisig = false) →
      secLoop tx hashes map th maxS (pre ++ rest) valid gas
        = secLoop tx hashes map th maxS rest valid gas := by
  intro pre
  induction pre with
  | nil => intro rest valid gas _; rfl
  | cons a t ih =>
    intro rest valid gas h
    have ha := h a (List.mem_cons_self a t)
    have ht : ∀ x ∈ t, x.isMultisig = false :=
      fun x hx => h x (List.mem_cons_of_mem a hx)
    cases a
    case sectionSignature m => simp [Section.isMultisig] at ha
    all_goals
      simp only [List.cons_append, secLoop]
    all_goals
      exact ih rest valid gas ht

theorem secLoop_ok_bound (tx : Tx) (hashes map : List Nat)
    (th maxS : Nat) :
    ∀ (sections : List Section) (valid : Nat) (gas gas1 : VpGasMeter),
      secLoop tx hashes map th maxS sections valid gas = (.ok (), gas1) →
      th ≤ valid + totalValidSigs map sections := by
  intro sections
  induction sections with
  | nil => intro valid gas gas1 h; simp [secLoop] at h
  | cons sec rest ih =>
    intro valid gas gas1 h
    cases sec
    case sectionSignature m =>
      rw [show totalValidSigs map (Section.sectionSignature m :: rest)
          = countValidIn map m.get_raw_hash m.signatures
            + totalValidSigs map rest from rfl]
      simp only [secLoop] at h
      split at h
      · simp at h
      · split at h
        · simp at h
        · split at h
          · simp at h
          · split at h
            · simp at h
            · cases hs : sigLoop map m.get_raw_hash th m.signatures
                  valid gas with
              | ret r gas2 =>
                rw [hs] at h
                simp only [] at h
                injection h with h1 h2
                subst h1
                have := sigLoop_ret_ok_bound map m.get_raw_hash th
                  m.signatures valid gas gas2 hs
                omega
              | cont valid2 gas2 =>
                rw [hs] at h
                simp only [] at h
                have hc := sigLoop_cont_count map m.get_raw_hash th
                  m.signatures valid gas valid2 gas2 hs
                have := ih _ _ _ h
                omega
    all_goals
      simp only [secLoop] at h
    all_goals
      have := ih _ _ _ h
    all_goals
      simpa [totalValidSigs] using this

/-- C3: quorum semantics of `verify_section_signatures`.  First, when the
transaction's multisig sections contain fewer than `threshold` valid
signatures in total (in particular only `k - 1` of them for
`threshold = k`), verification cannot succeed.  Second, when a multisig
section (preceded by no other multisig section) covers the requested hashes
with all targets present, holds at most `max_signatures` signatures
(possibly including invalid ones) of which at least `threshold` are valid,
and the meter can pay for the checks, verification succeeds.  Third, each
signature check consumes the fixed `VERIFY_TX_SIG_GAS_COST` from the
supplied meter, and a meter that cannot pay for a check makes verification
fail with the fatal `OutOfGas` error rather than an authentication
failure. -/
theorem verify_section_signatures_quorum :
    (∀ (tx : Tx) (hashes map : List Nat) (th : Nat) (maxS : Option Nat)
        (gas : VpGasMeter),
      totalValidSigs map tx.sections < th →
      (tx.verify_section_signatures hashes map th maxS gas).1 ≠ .ok ())
    ∧ (∀ (tx : Tx) (hashes map : List Nat) (th : Nat) (maxS : Option Nat)
        (gas : VpGasMeter) (pre post : List Section) (m : MultiSignature),
      tx.sections = pre ++ Section.sectionSignature m :: post →
      (∀ s ∈ pre, s.isMultisig = false) →
      hashes.all (fun x => m.targets.contains x
        || (Section.sectionSignature m).get_hash = x) = true →
      m.targets.any (fun t => (tx.get_section t).isNone) = false →
      m.signatures.length < 256 →
      m.total_signatures ≤ maxS.getD 255 →
      1 ≤ th →
      th ≤ countValidIn map m.get_raw_hash m.signatures →
      gas.consumed + m.signatures.length * VERIFY_TX_SIG_GAS_COST
        ≤ gas.limit →
      (tx.verify_section_signatures hashes map th maxS gas).1 = .ok ())
    ∧ (∀ (tx : Tx) (hashes map : List Nat) (th : Nat) (maxS : Option Nat)
        (gas : VpGasMeter) (pre post : List Section) (m : MultiSignature)
        (si : SignatureIndex) (sigsRest : List SignatureIndex),
      tx.sections = pre ++ Section.sectionSignature m :: post →
      (∀ s ∈ pre, s.isMultisig = false) →
      hashes.all (fun x => m.targets.contains x
        || (Section.sectionSignature m).get_hash = x) = true →
      m.targets.any (fun t => (tx.get_section t).isNone) = false →
      m.signatures.length < 256 →
      m.total_signatures ≤ maxS.getD 255 →
      th ≤ m.total_signatures →
      m.signatures = si :: sigsRest →
      gas.limit < gas.consumed + VERIFY_TX_SIG_GAS_COST →
      (tx.verify_section_signatures hashes map th maxS gas).1
        = .error .outOfGas) := by
  refine ⟨?_, ?_, ?_⟩
  · intro tx hashes map th maxS gas hlt hok
    rcases hres : tx.verify_section_signatures hashes map th maxS gas
      with ⟨r, g⟩
    rw [hres] at hok
    dsimp only at hok
    subst hok
    unfold Tx.verify_section_signatures at hres
    have := secLoop_ok_bound tx hashes map th (maxS.getD 255) tx.sections
      0 gas g hres
    omega
  · intro tx hashes map th maxS gas pre post m h1 h2 h3 h4 h5 h6 h7 h8 h9
    have htot : m.total_signatures = m.signatures.length := by
      unfold MultiSignature.total_signatures
      exact Nat.mod_eq_of_lt h5
    have hth_tot : th ≤ m.total_signatures := by
      rw [htot]
      exact le_trans h8 (countValidIn_le_length _ _ _)
    unfold Tx.verify_section_signatures
    rw [h1, secLoop_skip tx hashes map th (maxS.getD 255) pre _ 0 gas h2]
    simp only [secLoop]
    rw [if_neg (not_not_intro h3),
      if_neg (by simp [h4]),
      if_neg (Nat.not_lt.mpr h6),
      if_neg (Nat.not_lt.mpr hth_tot)]
    obtain ⟨gas1, hq⟩ := sigLoop_reaches_quorum map m.get_raw_hash th
      m.signatures 0 gas h9 (by omega) (by simpa using h8)
    rw [hq]
  · intro tx hashes map th maxS gas pre post m si sigsRest
      h1 h2 h3 h4 h5 h6 h7 h8 h9
    unfold Tx.verify_section_signatures
    rw [h1, secLoop_skip tx hashes map th (maxS.getD 255) pre _ 0 gas h2]
    simp only [secLoop]
    rw [if_neg (not_not_intro h3),
      if_neg (by simp [h4]),
      if_neg (Nat.not_lt.mpr h6),
      if_neg (Nat.not_lt.mpr h7)]
    have hcon : gas.consume VERIFY_TX_SIG_GAS_COST = .error () := by
      simp [VpGasMeter.consume]
      omega
    rw [h8]
    simp only [sigLoop, hcon]

/-- C3 witness: over the one-multisig transaction `txMsig` (one valid
signature by key 7 over an empty target list): with an empty key map the
single threshold-1 quorum fails; with the key map `[7]` and a 10000-unit
meter it succeeds; with a 500-unit meter (below the 1000-unit per-check
cost) it fails with `OutOfGas`. -/
theorem verify_section_signatures_quorum_witness :
    (totalValidSigs [] txMsig.sections < 1
      ∧ (txMsig.verify_section_signatures [] [] 1 none ⟨10000, 0⟩).1
        ≠ .ok ())
    ∧ (txMsig.verify_section_signatures [] [7] 1 none ⟨10000, 0⟩).1
      = .ok ()
    ∧ (txMsig.verify_section_signatures [] [7] 1 none ⟨500, 0⟩).1
      = .error .outOfGas :=
  ⟨⟨by decide,
    verify_section_signatures_quorum.1 txMsig [] [] 1 none ⟨10000, 0⟩
      (by decide)⟩,
    verify_section_signatures_quorum.2.1 txMsig [] [7] 1 none ⟨10000, 0⟩
      [] [] msig0 rfl (by intro s hs; cases hs) rfl rfl (by decide)
      (by decide) (by decide) (by decide) (by decide),
    verify_section_signatures_quorum.2.2 txMsig [] [7] 1 none ⟨500, 0⟩
      [] [] msig0 ⟨⟨7, rawHash0⟩, 0⟩ [] rfl (by intro s hs; cases hs) rfl
      rfl (by decide) (by decide) (by decide) rfl (by decide)⟩

/-! ## C8 — `wallet_filter` preserves section hashes -/

theorem map_hash_walletContract (l : List Section) :
    (l.map Section.walletContract).map Section.get_hash
      = l.map Section.get_hash := by
  induction l with
  | nil => rfl
  | cons a t ih => simp [Section.walletContract_hash, ih]

theorem find?_hash_walletContract (l : List Section) (h : Nat) :
    ((l.map Section.walletContract).find?
        (fun s => s.get_hash = h)).map Section.get_hash
      = (l.find? (fun s => s.get_hash = h)).map Section.get_hash := by
  induction l with
  | nil => rfl
  | cons a t ih =>
    simp only [List.map_cons]
    by_cases hc : a.get_hash = h
    · rw [List.find?_cons_of_pos _
          (by simp [Section.walletContract_hash, hc]),
        List.find?_cons_of_pos _ (by simp [hc])]
      simp [Section.walletContract_hash]
    · rw [List.find?_cons_of_neg _
          (by simp [Section.walletContract_hash, hc]),
        List.find?_cons_of_neg _ (by simp [hc])]
      exact ih

/-- C8: `wallet_filter` replaces each `Code` and `ExtraData` section's
commitment by its hash in place and returns clones of the originals, and —
because a `Code` section's hash is computed over the salt plus the
commitment's hash, which `contract()` leaves unchanged — every section hash,
the header, the header hash, and every hash-addressed section lookup are the
same before and after the filter. -/
theorem wallet_filter_preserves_references (tx : Tx) :
    (tx.wallet_filter).1.sections.map Section.get_hash
        = tx.sections.map Section.get_hash
    ∧ (tx.wallet_filter).1.header = tx.header
    ∧ (tx.wallet_filter).1.header_hash = tx.header_hash
    ∧ (∀ h, ((tx.wallet_filter).1.get_section h).map Section.get_hash
        = (tx.get_section h).map Section.get_hash)
    ∧ (tx.wallet_filter).2
        = tx.sections.reverse.filter Section.isWalletFiltered
    ∧ (∀ s ∈ (tx.wallet_filter).1.sections, ∀ c : CodeSec,
        (s = .code c ∨ s = .extraData c) → ∃ hsh, c.code = .hash hsh) := by
  refine ⟨map_hash_walletContract tx.sections, rfl, rfl, ?_, rfl, ?_⟩
  · intro h
    show (Tx.get_section
        ⟨tx.header, tx.sections.map Section.walletContract⟩ h).map
        Section.get_hash
      = (tx.get_section h).map Section.get_hash
    unfold Tx.get_section Tx.header_hash
    dsimp only
    by_cases hcase : (Section.header tx.header).get_hash = h
    · rw [if_pos hcase, if_pos hcase]
    · rw [if_neg hcase, if_neg hcase]
      exact find?_hash_walletContract tx.sections h
  · intro s hs c hc
    simp only [Tx.wallet_filter, List.mem_map] at hs
    obtain ⟨s0, _, hs0⟩ := hs
    rcases hc with rfl | rfl
    · cases s0 <;> simp [Section.walletContract] at hs0
      subst hs0
      exact Commitment.contract_isHash _
    · cases s0 <;> simp [Section.walletContract] at hs0
      subst hs0
      exact Commitment.contract_isHash _

/-- C8 witness: on the one-code-section transaction `txCode1`, the section
hashes and the returned clones are as the theorem states, and the filtered
code section holds a contracted (`Hash`) commitment. -/
theorem wallet_filter_preserves_references_witness :
    (txCode1.wallet_filter).1.sections.map Section.get_hash
        = txCode1.sections.map Section.get_hash
    ∧ (txCode1.wallet_filter).2
        = txCode1.sections.reverse.filter Section.isWalletFiltered
    ∧ (Section.walletContract (.code ⟨1, .id [2]⟩)
          ∈ (txCode1.wallet_filter).1.sections
      ∧ ∃ hsh, (CodeSec.mk 1 ((Commitment.id [2]).contract)).code
          = .hash hsh) :=
  ⟨(wallet_filter_preserves_references txCode1).1,
    (wallet_filter_preserves_references txCode1).2.2.2.2.1,
    by decide,
    (wallet_filter_preserves_references txCode1).2.2.2.2.2
      (Section.walletContract (.code ⟨1, .id [2]⟩)) (by decide)
      ⟨1, (Commitment.id [2]).contract⟩ (Or.inl rfl)⟩

/-! ## C6 — missing signature targets in `verify_signature` -/

theorem verifySigLoop_skip (tx : Tx) (pk : Nat) (hashes : List Nat) :
    ∀ (pre rest : List Section),
      (∀ s0 ∈ pre, ∀ ss, s0 = Section.signature ss →
        hashes.all (fun x => ss.targets.contains x || s0.get_hash = x)
          = false) →
      verifySigLoop tx pk hashes (pre ++ rest)
        = verifySigLoop tx pk hashes rest := by
  intro pre
  induction pre with
  | nil => intro rest _; rfl
  | cons a t ih =>
    intro rest h
    have ht : ∀ s0 ∈ t, ∀ ss, s0 = Section.signature ss →
        hashes.all (fun x => ss.targets.contains x || s0.get_hash = x)
          = false :=
      fun s0 hs0 => h s0 (List.mem_cons_of_mem a hs0)
    cases a
    case signature s =>
      have ha := h (Section.signature s) (List.mem_cons_self _ t) s rfl
      simp only [List.cons_append, verifySigLoop, ha]
      simp only [Bool.false_eq_true, if_false]
      exact ih rest ht
    all_goals
      simp only [List.cons_append, verifySigLoop]
    all_goals
      exact ih rest ht

/-- C6 (amended): when `verify_signature` finds a `Signature` section
covering the requested hashes (no earlier section covering them) but one of
that section's recorded target hashes does not resolve to a present section
(or the synthetic header), verification fails with the
`InvalidSectionSignature("Target section is missing.")` error — the proto
error enum has no `MissingData` variant. -/
theorem verify_signature_missing_target (tx : Tx) (pk : Nat)
    (hashes : List Nat) (pre post : List Section) (s : SignatureSec)
    (h1 : tx.sections = pre ++ Section.signature s :: post)
    (h2 : ∀ s0 ∈ pre, ∀ ss, s0 = Section.signature ss →
      hashes.all (fun x => ss.targets.contains x || s0.get_hash = x)
        = false)
    (h3 : hashes.all (fun x => s.targets.contains x
      || (Section.signature s).get_hash = x) = true)
    (h4 : s.targets.any (fun t => (tx.get_section t).isNone) = true) :
    Tx.verify_signature tx pk hashes
      = .error (.invalidSectionSignature "Target section is missing.") := by
  unfold Tx.verify_signature
  rw [h1, verifySigLoop_skip tx pk hashes pre _ h2]
  simp only [verifySigLoop, h3, if_true, h4]

/-- C6 counterexample: the transaction `txDangling` has a signature section
covering the requested hash 999 whose recorded target 999 resolves to no
section; verification fails, but with
`InvalidSectionSignature("Target section is missing.")` — there is no
`MissingData` variant in the proto error enum that `verify_signature`
returns, contrary to the claim's stated error. -/
theorem verify_signature_missing_target_counterexample :
    Tx.verify_signature txDangling 5 [999]
      = .error (.invalidSectionSignature "Target section is missing.") := by
  rfl

/-- C6 witness: the amended theorem applied to `txDangling`. -/
theorem verify_signature_missing_target_witness :
    txDangling.sections = [] ++ Section.signature sigDangling :: []
    ∧ ([999].all fun x => sigDangling.targets.contains x
        || (Section.signature sigDangling).get_hash = x) = true
    ∧ (sigDangling.targets.any
        fun t => (txDangling.get_section t).isNone) = true
    ∧ Tx.verify_signature txDangling 5 [999]
      = .error (.invalidSectionSignature "Target section is missing.") :=
  ⟨rfl, by decide, by decide,
    verify_signature_missing_target txDangling 5 [999] [] [] sigDangling
      rfl (by intro s0 hs0; cases hs0) (by decide) (by decide)⟩

/-! ## C9 — the PoS panic boundary in `execute_vps` -/

/-- C9: evaluating the proof-of-stake internal address never propagates a
panic out of the fold of `execute_vps`: as long as no other VP panics
(only PoS is documented as capable of panicking), the fold never ends in an
escaped panic; and when the PoS VP panics, the fold completes with the
dedicated `PosNativeVpRuntime` error, all other outcomes flowing through as
ordinary accept/reject results or typed errors. -/
theorem execute_vps_pos_panic_boundary :
    (∀ (env : VpAddr → RunOutcome) (verifiers : List VpAddr) (acc : VpsAcc),
      (∀ a ∈ verifiers, a ≠ VpAddr.pos → env a ≠ .panics) →
      ∀ p, execute_vps_fold env verifiers acc ≠ .error p)
    ∧ (∀ (env : VpAddr → RunOutcome) (pre post : List VpAddr) (acc : VpsAcc),
      (∀ a ∈ pre, ∃ b, execVpStep env a = .ok (.ok b)) →
      env .pos = .panics →
      execute_vps_fold env (pre ++ .pos :: post) acc
        = .ok (.error .posNativeVpRuntime)) := by
  constructor
  · intro env verifiers
    induction verifiers with
    | nil => intro acc _ p; simp [execute_vps_fold]
    | cons a rest ih =>
      intro acc h p
      have ha : a ≠ VpAddr.pos → env a ≠ .panics :=
        h a (List.mem_cons_self a rest)
      have hrest : ∀ x ∈ rest, x ≠ VpAddr.pos → env x ≠ .panics :=
        fun x hx => h x (List.mem_cons_of_mem a hx)
      cases a with
      | pos =>
        cases hp : env VpAddr.pos with
        | panics => simp [execute_vps_fold, execVpStep, hp]
        | completes r =>
          cases r with
          | error e => simp [execute_vps_fold, execVpStep, hp]
          | ok b =>
            simp only [execute_vps_fold, execVpStep, hp]
            exact ih _ hrest p
      | other n =>
        cases hp : env (VpAddr.other n) with
        | panics => exact absurd hp (ha (by simp))
        | completes r =>
          cases r with
          | error e => simp [execute_vps_fold, execVpStep, hp]
          | ok b =>
            simp only [execute_vps_fold, execVpStep, hp]
            exact ih _ hrest p
  · intro env pre post
    induction pre with
    | nil =>
      intro acc _ hpos
      simp [execute_vps_fold, execVpStep, hpos]
    | cons a rest ih =>
      intro acc h hpos
      obtain ⟨b, hb⟩ := h a (List.mem_cons_self a rest)
      have hrest : ∀ x ∈ rest, ∃ c, execVpStep env x = .ok (.ok c) :=
        fun x hx => h x (List.mem_cons_of_mem a hx)
      simp only [List.cons_append, execute_vps_fold, hb]
      exact ih _ hrest hpos

/-- C9 witness: under `envPosPanics` a verifier set containing the PoS
address and another address never escapes a panic, and with the PoS address
last the fold completes with the `PosNativeVpRuntime` error. -/
theorem execute_vps_pos_panic_boundary_witness :
    (∀ p, execute_vps_fold envPosPanics [.other 0, .pos] ⟨[], []⟩
      ≠ .error p)
    ∧ execute_vps_fold envPosPanics ([.other 5] ++ .pos :: []) ⟨[], []⟩
      = .ok (.error .posNativeVpRuntime) :=
  ⟨fun p =>
    execute_vps_pos_panic_boundary.1 envPosPanics [.other 0, .pos] ⟨[], []⟩
      (by
        intro a ha hne
        rcases List.mem_cons.mp ha with rfl | ha2
        · simp [envPosPanics]
        · rcases List.mem_cons.mp ha2 with rfl | h3
          · exact absurd rfl hne
          · cases h3) p,
    execute_vps_pos_panic_boundary.2 envPosPanics [.other 5] [] ⟨[], []⟩
      (by
        intro a ha
        rcases List.mem_cons.mp ha with rfl | h3
        · exact ⟨true, rfl⟩
        · cases h3)
      rfl⟩

/-! ## C7 — the bridge-pool VP's pool-entry checks -/

/-- C7: with a decoded pending transfer, the bridge-pool VP returns
`Ok(false)` (a rejection) when an entry already exists at the transfer's
derived pending key in the pre-state; and when the transfer is new (no
pre-state entry, no other bridge-pool key changed) but the post-state holds
no entry at that key, the VP returns a hard `Err`, not `Ok(false)`. -/
theorem bp_validate_tx_pool_entry :
    (∀ (ctx : BPCtx) (transfer pt0 : PendingTransfer) (keys : List BPKey),
      ctx.pre (.pending transfer) = some (.transfer pt0) →
      bp_validate_tx ctx (some transfer) keys = .ok false)
    ∧ (∀ (ctx : BPCtx) (transfer : PendingTransfer) (keys : List BPKey),
      ctx.pre (.pending transfer) = none →
      (∀ k ∈ keys, k.is_bridge_pool_key = true → k = .pending transfer) →
      ctx.post (.pending transfer) = none →
      ∃ e, bp_validate_tx ctx (some transfer) keys = .error e) := by
  constructor
  · intro ctx transfer pt0 keys hpre
    simp [bp_validate_tx, BPCtx.readPreTransfer, hpre]
  · intro ctx transfer keys hpre hk hpost
    have hany : keys.any
        (fun k => k.is_bridge_pool_key
          && decide (k ≠ BPKey.pending transfer)) = false := by
      rw [List.any_eq_false]
      intro k hkmem
      by_cases hbp : k.is_bridge_pool_key = true
      · have := hk k hkmem hbp
        simp [this]
      · simp [Bool.eq_false_iff.mpr hbp]
    refine ⟨"transfer was not added to the pool of pending transfers", ?_⟩
    simp only [bp_validate_tx, BPCtx.readPreTransfer, hpre, hany,
      BPCtx.readPostTransfer, hpost, Bool.false_eq_true, if_false]

/-- C7 witness: the rejection at a duplicated pool entry and the hard error
at a never-written pool entry, on concrete contexts. -/
theorem bp_validate_tx_pool_entry_witness :
    (bpCtxDup.pre (.pending bpTransfer0)
        = some (.transfer bpTransfer0)
      ∧ bp_validate_tx bpCtxDup (some bpTransfer0) [] = .ok false)
    ∧ (bpCtxEmpty.pre (.pending bpTransfer0) = none
      ∧ bpCtxEmpty.post (.pending bpTransfer0) = none
      ∧ ∃ e, bp_validate_tx bpCtxEmpty (some bpTransfer0) [] = .error e) :=
  ⟨⟨by decide,
    bp_validate_tx_pool_entry.1 bpCtxDup bpTransfer0 bpTransfer0 []
      (by decide)⟩,
    ⟨rfl, rfl,
      bp_validate_tx_pool_entry.2 bpCtxEmpty bpTransfer0 [] rfl
        (by intro k hk; cases hk) rfl⟩⟩

/-! ## C10 — dispatch of `Raw` and undecryptable transactions -/

/-- C10: `dispatch_tx` refuses a `Raw` transaction with `TxTypeError` and
returns the default (empty) `TxResult` for an undecryptable decrypted
transaction, in both cases leaving the state untouched and independently of
the wasm, protocol and wrapper branches — i.e. without executing any
transaction code, VP, or storage write. -/
theorem dispatch_tx_raw_undecryptable {σ : Type} (tx : Tx)
    (applyWasm applyProtocol applyWrapper : σ → σ × Except PError TxResult)
    (s : σ) :
    (tx.header.txType = .raw →
      dispatch_tx tx applyWasm applyProtocol applyWrapper s
        = (s, .error .txTypeError))
    ∧ (tx.header.txType = .decrypted .undecryptable →
      dispatch_tx tx applyWasm applyProtocol applyWrapper s
        = (s, .ok TxResult.default)) := by
  constructor
  · intro h; simp [dispatch_tx, h]
  · intro h; simp [dispatch_tx, h]

/-- C10 witness: a raw-header transaction and an undecryptable one
dispatched with branch functions that would visibly mutate a `Nat` state. -/
theorem dispatch_tx_raw_undecryptable_witness :
    txRawEmpty.header.txType = .raw
    ∧ dispatch_tx txRawEmpty (bumpBranch 1) (bumpBranch 2) (bumpBranch 3) 0
      = (0, .error .txTypeError)
    ∧ txUndecryptable.header.txType = .decrypted .undecryptable
    ∧ dispatch_tx txUndecryptable (bumpBranch 1) (bumpBranch 2)
        (bumpBranch 3) 0
      = (0, .ok TxResult.default) :=
  ⟨rfl,
    (dispatch_tx_raw_undecryptable txRawEmpty (bumpBranch 1) (bumpBranch 2)
      (bumpBranch 3) 0).1 rfl,
    rfl,
    (dispatch_tx_raw_undecryptable txUndecryptable (bumpBranch 1)
      (bumpBranch 2) (bumpBranch 3) 0).2 rfl⟩

end Namada
